import Mathlib

/-
  Verification of the placement engine of the strands_creator application
  (src/src/App.js).  The React component state is embedded as a record
  `AppState`; each event handler of the component becomes a pure function
  from state to state.  Words are identified by natural numbers standing
  for the opaque unique ids the application generates; colors are the
  literal palette strings.
-/

namespace Strands

/-- A word entry of the registry: stable id, text and display color
(App.js `enteredWords` elements). -/
structure Word where
  id : Nat
  text : String
  color : String
deriving DecidableEq

/-- An occupied grid cell (App.js grid cell object):
`{ letter, wordId, color, sequenceIndex, row, col }`. -/
structure Cell where
  letter : Char
  wordId : Nat
  color : String
  sequenceIndex : Nat
  row : Nat
  col : Nat
deriving DecidableEq

/-- The 8x6 grid of App.js `gridCells`: each slot empty (`none`) or
holding one placement. -/
abbrev Grid := Fin 8 → Fin 6 → Option Cell

/-- App.js `selectedWordData`: the fields are `null` (here `none`) when no
word is selected. -/
structure SelectedWordData where
  id : Option Nat
  text : Option String
  color : Option String
  letterIndex : Nat
  lastPlacedCoords : Option (Nat × Nat)
deriving DecidableEq

/-- The component state of App.js that the event handlers read and write. -/
structure AppState where
  currentWord : String
  enteredWords : List Word
  editMode : Option Nat
  editedWordText : String
  selectedWordData : SelectedWordData
  gridCells : Grid
  themeText : String
  hintText : String
  nextColorIndex : Nat

/-- The fixed palette `WORD_COLORS` of App.js. -/
def WORD_COLORS : List String :=
  ["#EF4444", "#3B82F6", "#10B981", "#F59E0B", "#8B5CF6", "#EC4899",
   "#06B6D4", "#6B7280", "#A855F7", "#EAB308", "#F43F5E", "#22C55E"]

/-- The deselected `selectedWordData` value
`{ id: null, text: null, color: null, letterIndex: 0, lastPlacedCoords: null }`. -/
def emptySelection : SelectedWordData :=
  { id := none, text := none, color := none, letterIndex := 0, lastPlacedCoords := none }

/-- The initial component state: empty inputs, no words, an all-empty grid,
nothing selected. -/
def initState : AppState :=
  { currentWord := ""
    enteredWords := []
    editMode := none
    editedWordText := ""
    selectedWordData := emptySelection
    gridCells := fun _ _ => none
    themeText := ""
    hintText := ""
    nextColorIndex := 0 }

/-- App.js `isNeighbor`: true when both coordinates are present, row and
column each differ by at most 1, and the cells are not identical. -/
def isNeighbor (coords1 coords2 : Option (Nat × Nat)) : Bool :=
  match coords1, coords2 with
  | some (r1, c1), some (r2, c2) =>
    let dr := ((r1 : Int) - (r2 : Int)).natAbs
    let dc := ((c1 : Int) - (c2 : Int)).natAbs
    decide (dr ≤ 1) && decide (dc ≤ 1) && (decide (dr ≠ 0) || decide (dc ≠ 0))
  | _, _ => false

/-- Writing one slot of the grid (the single array store
`newGridCells[rowIndex][colIndex] = v` on a fresh copy). -/
def setGridCell (g : Grid) (ri : Fin 8) (ci : Fin 6) (v : Option Cell) : Grid :=
  fun r c => if r = ri ∧ c = ci then v else g r c

/-- All grid coordinates in the row-major order of the nested
`for (r ...) for (c ...)` loops of App.js. -/
def allCoords : List (Fin 8 × Fin 6) :=
  (List.finRange 8).foldr (fun r acc => ((List.finRange 6).map (fun c => (r, c))) ++ acc) []

/-- One step of the scan for the highest `sequenceIndex` of a word on the
grid: the loop body shared by `handleSelectWord` and the toggle-off branch
of `handleCellClick` (accumulator components: max index so far, `-1`
initially; its coordinates, `null` initially). -/
def scanStep (g : Grid) (wordId : Nat) (acc : Int × Option (Nat × Nat))
    (rc : Fin 8 × Fin 6) : Int × Option (Nat × Nat) :=
  match g rc.1 rc.2 with
  | some cell =>
    if cell.wordId = wordId ∧ (cell.sequenceIndex : Int) > acc.1 then
      ((cell.sequenceIndex : Int), some (rc.1.val, rc.2.val))
    else acc
  | none => acc

/-- The row-major scan of the whole grid for the highest `sequenceIndex`
of `wordId` and its coordinates, starting from `(-1, null)`. -/
def scanMaxSeq (g : Grid) (wordId : Nat) : Int × Option (Nat × Nat) :=
  allCoords.foldl (scanStep g wordId) (-1, none)

/-- App.js `clearCellsForWord`: empty every cell owned by `wordIdToClear`;
if that word is the current selection, reset its `letterIndex` to 0 and
its `lastPlacedCoords` to absent. -/
def clearCellsForWord (s : AppState) (wordIdToClear : Nat) : AppState :=
  let updatedGrid : Grid := fun r c =>
    match s.gridCells r c with
    | some cell => if cell.wordId = wordIdToClear then none else some cell
    | none => none
  let s1 := { s with gridCells := updatedGrid }
  if s.selectedWordData.id = some wordIdToClear then
    { s1 with selectedWordData :=
        { s1.selectedWordData with letterIndex := 0, lastPlacedCoords := none } }
  else s1

/-- App.js `handleSelectWord`: toggle off when already selected, otherwise
scan the grid for the word's highest placed `sequenceIndex` and resume
after it; always leaves edit mode. -/
def handleSelectWord (s : AppState) (wordId : Nat) (wordText : String)
    (wordColor : String) : AppState :=
  let s1 :=
    if s.selectedWordData.id = some wordId then
      { s with selectedWordData := emptySelection }
    else
      let scanned := scanMaxSeq s.gridCells wordId
      let newLetterIndex := if scanned.1 = -1 then 0 else (scanned.1 + 1).toNat
      { s with selectedWordData :=
          { id := some wordId
            text := some wordText.trim
            color := some wordColor
            letterIndex := newLetterIndex
            lastPlacedCoords := scanned.2 } }
  { s1 with editMode := none }

/-- App.js `handleCellClick`: the central click rule.  The guard mirrors
the JavaScript truthiness test `selectedWordId && selectedWordText &&
selectedColor` (absent or empty-string fields make the click a no-op). -/
def handleCellClick (s : AppState) (rowIndex : Fin 8) (colIndex : Fin 6) : AppState :=
  let currentCellContent := s.gridCells rowIndex colIndex
  match s.selectedWordData.id, s.selectedWordData.text, s.selectedWordData.color with
  | some selectedWordId, some selectedWordText, some selectedColor =>
    if selectedWordText = "" ∨ selectedColor = "" then s
    else if s.selectedWordData.letterIndex ≥ selectedWordText.length then
      { s with selectedWordData := emptySelection }
    else
      let letterToPlace :=
        (selectedWordText.toList.getD s.selectedWordData.letterIndex ' ').toUpper
      match currentCellContent with
      | some cell =>
        if cell.wordId = selectedWordId then
          let newGridCells := setGridCell s.gridCells rowIndex colIndex none
          let scanned := scanMaxSeq newGridCells selectedWordId
          { s with gridCells := newGridCells
                   selectedWordData :=
                     { s.selectedWordData with
                       letterIndex := (max 0 (scanned.1 + 1)).toNat
                       lastPlacedCoords := scanned.2 } }
        else s
      | none =>
        if s.selectedWordData.letterIndex = 0 ∨
            isNeighbor s.selectedWordData.lastPlacedCoords
              (some (rowIndex.val, colIndex.val)) = true then
          let newGridCells := setGridCell s.gridCells rowIndex colIndex
            (some { letter := letterToPlace
                    wordId := selectedWordId
                    color := selectedColor
                    sequenceIndex := s.selectedWordData.letterIndex
                    row := rowIndex.val
                    col := colIndex.val })
          if s.selectedWordData.letterIndex + 1 ≥ selectedWordText.length then
            { s with gridCells := newGridCells, selectedWordData := emptySelection }
          else
            { s with gridCells := newGridCells
                     selectedWordData :=
                       { s.selectedWordData with
                         letterIndex := s.selectedWordData.letterIndex + 1
                         lastPlacedCoords := some (rowIndex.val, colIndex.val) } }
        else s
  | _, _, _ => s

/-- App.js `handleEditClick`: enter edit mode for a word and deselect. -/
def handleEditClick (s : AppState) (wordId : Nat) (currentText : String) : AppState :=
  { s with editMode := some wordId
           editedWordText := currentText
           selectedWordData := emptySelection }

/-- App.js `handleSaveEdit`: save a rename; clear the word's cells first
when its text actually changed; an empty post-trim text cancels instead. -/
def handleSaveEdit (s : AppState) (wordId : Nat) : AppState :=
  let originalWord := s.enteredWords.find? (fun w => w.id = wordId)
  if s.editedWordText.trim ≠ "" then
    let s1 :=
      match originalWord with
      | some ow =>
        if ow.text ≠ s.editedWordText.trim then clearCellsForWord s wordId else s
      | none => s
    { s1 with
      enteredWords := s1.enteredWords.map (fun w =>
        if w.id = wordId then { w with text := s.editedWordText.trim } else w)
      editMode := none
      editedWordText := "" }
  else
    { s with editMode := none, editedWordText := "" }

/-- App.js `handleCancelEdit`. -/
def handleCancelEdit (s : AppState) : AppState :=
  { s with editMode := none, editedWordText := "" }

/-- App.js `handleAddWord`: append a word with the next palette color when
the trimmed input is nonempty (the id parameter stands for the generated
unique id). -/
def handleAddWord (s : AppState) (newId : Nat) : AppState :=
  if s.currentWord.trim ≠ "" then
    let newWordColor := WORD_COLORS.getD (s.nextColorIndex % WORD_COLORS.length) ""
    { s with
      enteredWords := s.enteredWords ++
        [{ id := newId, text := s.currentWord.trim, color := newWordColor }]
      nextColorIndex := s.nextColorIndex + 1
      currentWord := "" }
  else s

/-- The record string of one exported occupied cell, grid data portion of
App.js `handleExport`: the `find` + `indexOf` pair is the first index of
the owning word in the registry, `-1` when it no longer exists. -/
def exportRecord (words : List Word) (cellContent : Cell) : String :=
  let wordIndex : Int :=
    match words.findIdx? (fun w => w.id = cellContent.wordId) with
    | some i => (i : Int)
    | none => -1
  toString wordIndex ++ ";" ++ toString cellContent.sequenceIndex ++ ";" ++
    toString cellContent.row ++ ";" ++ toString cellContent.col

/-- App.js `handleExport`: the full text content of the exported file
(byte-order mark, then theme, hint, comma-joined word texts and
comma-joined records of the flattened grid's occupied cells). -/
def handleExport (s : AppState) : String :=
  let themeLine := s.themeText
  let hintLine := s.hintText
  let wordsLine := String.intercalate "," (s.enteredWords.map (fun w => w.text))
  let gridDataLine := String.intercalate ","
    ((allCoords.filterMap (fun rc => s.gridCells rc.1 rc.2)).map
      (fun cellContent => exportRecord s.enteredWords cellContent))
  "\uFEFF" ++ themeLine ++ "\n" ++ hintLine ++ "\n" ++ wordsLine ++ "\n" ++ gridDataLine

/-- One user-interface event: each constructor is one event handler of
App.js together with the values the rendered component passes to it. -/
inductive Op where
  | inputChange (value : String)
  | addWord (newId : Nat)
  | editClick (wordId : Nat) (currentText : String)
  | editInputChange (value : String)
  | saveEdit (wordId : Nat)
  | cancelEdit
  | clearWordCells (wordId : Nat)
  | selectWord (wordId : Nat) (wordText : String) (wordColor : String)
  | cellClick (rowIndex : Fin 8) (colIndex : Fin 6)
  | themeChange (value : String)
  | hintChange (value : String)

/-- The state transition of one event. -/
def applyOp (s : AppState) : Op → AppState
  | .inputChange value => { s with currentWord := value }
  | .addWord newId => handleAddWord s newId
  | .editClick wordId currentText => handleEditClick s wordId currentText
  | .editInputChange value => { s with editedWordText := value }
  | .saveEdit wordId => handleSaveEdit s wordId
  | .cancelEdit => handleCancelEdit s
  | .clearWordCells wordId => clearCellsForWord s wordId
  | .selectWord wordId wordText wordColor => handleSelectWord s wordId wordText wordColor
  | .cellClick rowIndex colIndex => handleCellClick s rowIndex colIndex
  | .themeChange value => { s with themeText := value }
  | .hintChange value => { s with hintText := value }

/-- States reachable from the initial state by user-interface events. -/
inductive Reachable : AppState → Prop where
  | init : Reachable initState
  | step {s : AppState} (h : Reachable s) (op : Op) : Reachable (applyOp s op)

/-
  Lemmas about the grid scan for the highest placed sequence index.
-/

/-- The scan accumulator's max component never decreases at one step. -/
lemma scanStep_fst_le (g : Grid) (w : Nat) (acc : Int × Option (Nat × Nat))
    (rc : Fin 8 × Fin 6) : acc.1 ≤ (scanStep g w acc rc).1 := by
  unfold scanStep
  cases g rc.1 rc.2 with
  | none => exact le_refl _
  | some cell =>
    dsimp only
    split
    · next hc => exact le_of_lt hc.2
    · exact le_refl _

/-- The scan accumulator's max component never decreases along a fold. -/
lemma foldl_scanStep_fst_le (g : Grid) (w : Nat) (l : List (Fin 8 × Fin 6))
    (acc : Int × Option (Nat × Nat)) : acc.1 ≤ (l.foldl (scanStep g w) acc).1 := by
  induction l generalizing acc with
  | nil => exact le_refl _
  | cons rc l ih =>
    calc acc.1 ≤ (scanStep g w acc rc).1 := scanStep_fst_le g w acc rc
    _ ≤ _ := ih _

/-- After scanning a list containing `rc`, the max component bounds the
sequence index of any cell of word `w` at `rc`. -/
lemma foldl_scanStep_ub (g : Grid) (w : Nat) (l : List (Fin 8 × Fin 6))
    (acc : Int × Option (Nat × Nat)) (rc : Fin 8 × Fin 6) (hm : rc ∈ l)
    (cell : Cell) (hc : g rc.1 rc.2 = some cell) (hw : cell.wordId = w) :
    (cell.sequenceIndex : Int) ≤ (l.foldl (scanStep g w) acc).1 := by
  induction l generalizing acc with
  | nil => cases hm
  | cons a l ih =>
    rw [List.foldl_cons]
    rcases List.mem_cons.mp hm with h | h
    · subst h
      refine le_trans ?_ (foldl_scanStep_fst_le g w l (scanStep g w acc rc))
      unfold scanStep
      rw [hc]
      dsimp only
      split
      · exact le_refl _
      · next hcond =>
        have : ¬ (cell.sequenceIndex : Int) > acc.1 := fun hgt => hcond ⟨hw, hgt⟩
        omega
    · exact ih _ h

/-- The scan result is either the untouched accumulator or the sequence
index and coordinates of an actual cell of word `w` in the scanned list. -/
lemma foldl_scanStep_provenance (g : Grid) (w : Nat) (l : List (Fin 8 × Fin 6))
    (acc : Int × Option (Nat × Nat)) :
    l.foldl (scanStep g w) acc = acc ∨
    ∃ rc ∈ l, ∃ cell, g rc.1 rc.2 = some cell ∧ cell.wordId = w ∧
      (l.foldl (scanStep g w) acc).1 = (cell.sequenceIndex : Int) ∧
      (l.foldl (scanStep g w) acc).2 = some (rc.1.val, rc.2.val) := by
  induction l generalizing acc with
  | nil => exact Or.inl rfl
  | cons a l ih =>
    rw [List.foldl_cons]
    have hstep : scanStep g w acc a = acc ∨
        ∃ cell, g a.1 a.2 = some cell ∧ cell.wordId = w ∧
          scanStep g w acc a = ((cell.sequenceIndex : Int), some (a.1.val, a.2.val)) := by
      unfold scanStep
      cases hg : g a.1 a.2 with
      | none => exact Or.inl rfl
      | some cell =>
        dsimp only
        split
        · next hcond => exact Or.inr ⟨cell, rfl, hcond.1, rfl⟩
        · exact Or.inl rfl
    rcases ih (scanStep g w acc a) with h | h
    · rcases hstep with hs | ⟨cell, hg, hw, hs⟩
      · exact Or.inl (by rw [h, hs])
      · refine Or.inr ⟨a, List.mem_cons_self a l, cell, hg, hw, ?_, ?_⟩
        · rw [h, hs]
        · rw [h, hs]
    · rcases h with ⟨rc, hrc, cell, hg, hw, h1, h2⟩
      exact Or.inr ⟨rc, List.mem_cons_of_mem a hrc, cell, hg, hw, h1, h2⟩

/-- Every coordinate pair occurs in the row-major scan list. -/
lemma mem_allCoords : ∀ (r : Fin 8) (c : Fin 6), (r, c) ∈ allCoords := by decide

/-- The scanned max bounds the sequence index of every cell of the word. -/
lemma scanMaxSeq_ub (g : Grid) (w : Nat) (r : Fin 8) (c : Fin 6) (cell : Cell)
    (hc : g r c = some cell) (hw : cell.wordId = w) :
    (cell.sequenceIndex : Int) ≤ (scanMaxSeq g w).1 :=
  foldl_scanStep_ub g w allCoords (-1, none) (r, c) (mem_allCoords r c) cell hc hw

/-- Either the scan found nothing (and the word has no cell on the grid),
or it returns the sequence index and coordinates of a cell of the word. -/
lemma scanMaxSeq_cases (g : Grid) (w : Nat) :
    (scanMaxSeq g w = (-1, none) ∧ ∀ r c cell, g r c = some cell → cell.wordId ≠ w) ∨
    ∃ r c cell, g r c = some cell ∧ cell.wordId = w ∧
      (scanMaxSeq g w).1 = (cell.sequenceIndex : Int) ∧
      (scanMaxSeq g w).2 = some (r.val, c.val) := by
  rcases foldl_scanStep_provenance g w allCoords (-1, none) with h | h
  · refine Or.inl ⟨h, fun r c cell hc hw => ?_⟩
    have hub := scanMaxSeq_ub g w r c cell hc hw
    rw [show scanMaxSeq g w = allCoords.foldl (scanStep g w) (-1, none) from rfl, h] at hub
    omega
  · rcases h with ⟨rc, _, cell, hg, hw, h1, h2⟩
    exact Or.inr ⟨rc.1, rc.2, cell, hg, hw, h1, h2⟩

/-- When the scan returns `-1` the coordinate component is absent and the
word has no cell on the grid. -/
lemma scanMaxSeq_eq_neg_one (g : Grid) (w : Nat) (h : (scanMaxSeq g w).1 = -1) :
    (scanMaxSeq g w).2 = none ∧ ∀ r c cell, g r c = some cell → cell.wordId ≠ w := by
  rcases scanMaxSeq_cases g w with ⟨h1, h2⟩ | ⟨r, c, cell, hc, hw, h1, h2⟩
  · exact ⟨by rw [h1], h2⟩
  · rw [h1] at h
    omega

/-- When the scan does not return `-1` it names a real cell of the word
achieving the max. -/
lemma scanMaxSeq_ne_neg_one (g : Grid) (w : Nat) (h : (scanMaxSeq g w).1 ≠ -1) :
    ∃ r c cell, g r c = some cell ∧ cell.wordId = w ∧
      (scanMaxSeq g w).1 = (cell.sequenceIndex : Int) ∧
      (scanMaxSeq g w).2 = some (r.val, c.val) := by
  rcases scanMaxSeq_cases g w with ⟨h1, _⟩ | hex
  · rw [h1] at h
    exact absurd rfl h
  · exact hex

/-
  Basic frame lemmas for grid writes and the simple handlers.
-/

/-- Reading back the slot just written. -/
lemma setGridCell_self (g : Grid) (ri : Fin 8) (ci : Fin 6) (v : Option Cell) :
    setGridCell g ri ci v ri ci = v := if_pos ⟨rfl, rfl⟩

/-- Reading any other slot after a write. -/
lemma setGridCell_other (g : Grid) (ri : Fin 8) (ci : Fin 6) (v : Option Cell)
    (r : Fin 8) (c : Fin 6) (h : ¬(r = ri ∧ c = ci)) :
    setGridCell g ri ci v r c = g r c := if_neg h

/-- Pointwise description of the grid after `clearCellsForWord`. -/
lemma clearCellsForWord_gridCells (s : AppState) (wid : Nat) (r : Fin 8) (c : Fin 6) :
    (clearCellsForWord s wid).gridCells r c =
      match s.gridCells r c with
      | some cell => if cell.wordId = wid then none else some cell
      | none => none := by
  unfold clearCellsForWord
  dsimp only
  split <;> rfl

/-- The selection after `clearCellsForWord`. -/
lemma clearCellsForWord_sel (s : AppState) (wid : Nat) :
    (clearCellsForWord s wid).selectedWordData =
      if s.selectedWordData.id = some wid then
        { s.selectedWordData with letterIndex := 0, lastPlacedCoords := none }
      else s.selectedWordData := by
  unfold clearCellsForWord
  dsimp only
  split <;> rfl

/-- Selecting a word never changes the grid. -/
lemma handleSelectWord_gridCells (s : AppState) (wid : Nat) (wtext wcolor : String) :
    (handleSelectWord s wid wtext wcolor).gridCells = s.gridCells := by
  unfold handleSelectWord
  dsimp only
  split <;> rfl

/-- Selecting an already-selected word deselects. -/
lemma handleSelectWord_sel_eq (s : AppState) (wid : Nat) (wtext wcolor : String)
    (h : s.selectedWordData.id = some wid) :
    (handleSelectWord s wid wtext wcolor).selectedWordData = emptySelection := by
  unfold handleSelectWord
  dsimp only
  rw [if_pos h]

/-- Selecting a word that is not the current selection builds the
resumption selection from the grid scan. -/
lemma handleSelectWord_sel_ne (s : AppState) (wid : Nat) (wtext wcolor : String)
    (h : ¬ s.selectedWordData.id = some wid) :
    (handleSelectWord s wid wtext wcolor).selectedWordData =
      { id := some wid
        text := some wtext.trim
        color := some wcolor
        letterIndex :=
          if (scanMaxSeq s.gridCells wid).1 = -1 then 0
          else ((scanMaxSeq s.gridCells wid).1 + 1).toNat
        lastPlacedCoords := (scanMaxSeq s.gridCells wid).2 } := by
  unfold handleSelectWord
  dsimp only
  rw [if_neg h]

/-
  The system invariant: no two occupied cells of one word share a
  sequence index; when a word is selected, every one of its placed cells
  has a sequence index strictly below the selection's next letter index;
  and a positive next letter index comes with a present last-placed
  coordinate.
-/

/-- No two distinct occupied cells share `(wordId, sequenceIndex)`. -/
def NoDupSeq (g : Grid) : Prop :=
  ∀ (r r' : Fin 8) (c c' : Fin 6) (cell cell' : Cell),
    g r c = some cell → g r' c' = some cell' →
    cell.wordId = cell'.wordId → cell.sequenceIndex = cell'.sequenceIndex →
    r = r' ∧ c = c'

/-- Every placed cell of the selected word lies strictly below the
selection's next letter index. -/
def SelBound (s : AppState) : Prop :=
  ∀ w, s.selectedWordData.id = some w →
    ∀ (r : Fin 8) (c : Fin 6) (cell : Cell),
      s.gridCells r c = some cell → cell.wordId = w →
      cell.sequenceIndex < s.selectedWordData.letterIndex

/-- A selected word with a positive next letter index has a present
last-placed coordinate. -/
def CoordPresent (s : AppState) : Prop :=
  ∀ w, s.selectedWordData.id = some w → 0 < s.selectedWordData.letterIndex →
    ∃ p, s.selectedWordData.lastPlacedCoords = some p

/-- The conjunction of the three state invariants. -/
def Inv (s : AppState) : Prop := NoDupSeq s.gridCells ∧ SelBound s ∧ CoordPresent s

lemma inv_initState : Inv initState := by
  refine ⟨fun r r' c c' cell cell' h1 => ?_, fun w hw => ?_, fun w hw => ?_⟩
  · exact absurd h1 (by simp [initState])
  · exact absurd hw (by simp [initState, emptySelection])
  · exact absurd hw (by simp [initState, emptySelection])

lemma inv_of_grid_sel {s s' : AppState} (h : Inv s)
    (hg : s'.gridCells = s.gridCells) (hs : s'.selectedWordData = s.selectedWordData) :
    Inv s' := by
  obtain ⟨h1, h2, h3⟩ := h
  refine ⟨?_, ?_, ?_⟩
  · rw [hg]; exact h1
  · intro w hw r c cell hc hcw
    rw [hs] at hw ⊢
    rw [hg] at hc
    exact h2 w hw r c cell hc hcw
  · intro w hw hpos
    rw [hs] at hw hpos ⊢
    exact h3 w hw hpos

lemma inv_emptySelection {s s' : AppState} (h : Inv s)
    (hg : s'.gridCells = s.gridCells) (hs : s'.selectedWordData = emptySelection) :
    Inv s' := by
  obtain ⟨h1, _, _⟩ := h
  refine ⟨by rw [hg]; exact h1, ?_, ?_⟩
  · intro w hw
    rw [hs] at hw
    exact absurd hw (by simp [emptySelection])
  · intro w hw
    rw [hs] at hw
    exact absurd hw (by simp [emptySelection])

/-- Removing one slot only shrinks the grid pointwise. -/
lemma setGridCell_none_sub (g : Grid) (ri : Fin 8) (ci : Fin 6) (r : Fin 8) (c : Fin 6)
    (cell : Cell) (hc : setGridCell g ri ci none r c = some cell) : g r c = some cell := by
  unfold setGridCell at hc
  by_cases hrc : r = ri ∧ c = ci
  · rw [if_pos hrc] at hc
    cases hc
  · rwa [if_neg hrc] at hc

lemma inv_clearCellsForWord (s : AppState) (wid : Nat) (h : Inv s) :
    Inv (clearCellsForWord s wid) := by
  obtain ⟨h1, h2, h3⟩ := h
  have hgrid : ∀ (r : Fin 8) (c : Fin 6) (cell : Cell),
      (clearCellsForWord s wid).gridCells r c = some cell →
      s.gridCells r c = some cell ∧ cell.wordId ≠ wid := by
    intro r c cell hc
    rw [clearCellsForWord_gridCells] at hc
    revert hc
    cases hg : s.gridCells r c with
    | none => intro hc; cases hc
    | some cell0 =>
      dsimp only
      split
      · intro hc; cases hc
      · next hne =>
        intro hc
        injection hc with hc
        subst hc
        exact ⟨rfl, hne⟩
  refine ⟨?_, ?_, ?_⟩
  · intro r r' c c' cell cell' hc hc' hw hs0
    exact h1 r r' c c' cell cell' (hgrid r c cell hc).1 (hgrid r' c' cell' hc').1 hw hs0
  · intro w hw r c cell hc hcw
    rw [clearCellsForWord_sel] at hw ⊢
    by_cases hsel : s.selectedWordData.id = some wid
    · rw [if_pos hsel] at hw
      dsimp only at hw
      rw [hsel] at hw
      injection hw with hw
      have hcid : cell.wordId = wid := by rw [hcw, ← hw]
      exact absurd hcid (hgrid r c cell hc).2
    · rw [if_neg hsel] at hw ⊢
      exact h2 w hw r c cell (hgrid r c cell hc).1 hcw
  · intro w hw hpos
    rw [clearCellsForWord_sel] at hw hpos ⊢
    by_cases hsel : s.selectedWordData.id = some wid
    · rw [if_pos hsel] at hpos
      dsimp only at hpos
      omega
    · rw [if_neg hsel] at hw hpos ⊢
      exact h3 w hw hpos

lemma inv_handleSelectWord (s : AppState) (wid : Nat) (wtext wcolor : String)
    (h : Inv s) : Inv (handleSelectWord s wid wtext wcolor) := by
  obtain ⟨h1, h2, h3⟩ := h
  have hg := handleSelectWord_gridCells s wid wtext wcolor
  by_cases hsel : s.selectedWordData.id = some wid
  · exact inv_emptySelection ⟨h1, h2, h3⟩ hg
      (handleSelectWord_sel_eq s wid wtext wcolor hsel)
  · have hsel' := handleSelectWord_sel_ne s wid wtext wcolor hsel
    refine ⟨by rw [hg]; exact h1, ?_, ?_⟩
    · intro w hw r c cell hc hcw
      rw [hsel'] at hw ⊢
      dsimp only at hw ⊢
      injection hw with hw
      subst hw
      rw [hg] at hc
      by_cases hscan : (scanMaxSeq s.gridCells wid).1 = -1
      · exact absurd hcw ((scanMaxSeq_eq_neg_one s.gridCells wid hscan).2 r c cell hc)
      · rw [if_neg hscan]
        have hub := scanMaxSeq_ub s.gridCells wid r c cell hc hcw
        omega
    · intro w hw hpos
      rw [hsel'] at hw hpos ⊢
      dsimp only at hw hpos ⊢
      injection hw with hw
      subst hw
      by_cases hscan : (scanMaxSeq s.gridCells wid).1 = -1
      · rw [if_pos hscan] at hpos
        omega
      · obtain ⟨r0, c0, cell0, _, _, _, hcoords⟩ := scanMaxSeq_ne_neg_one s.gridCells wid hscan
        exact ⟨_, hcoords⟩

lemma inv_handleCellClick (s : AppState) (ri : Fin 8) (ci : Fin 6) (h : Inv s) :
    Inv (handleCellClick s ri ci) := by
  obtain ⟨h1, h2, h3⟩ := h
  unfold handleCellClick
  dsimp only
  split
  next _ _ _ w t col hid htx hcl =>
    split
    next => exact ⟨h1, h2, h3⟩
    next =>
      split
      next => exact inv_emptySelection ⟨h1, h2, h3⟩ rfl rfl
      next hstale =>
        split
        next cell hcell =>
          split
          next hcw =>
            refine ⟨?_, ?_, ?_⟩
            · intro r r' c c' cell0 cell0' hc hc' hw0 hs0
              exact h1 r r' c c' cell0 cell0'
                (setGridCell_none_sub s.gridCells ri ci r c cell0 hc)
                (setGridCell_none_sub s.gridCells ri ci r' c' cell0' hc') hw0 hs0
            · intro w' hw' r c cell0 hc hcw0
              dsimp only at hw' ⊢
              rw [hid] at hw'
              injection hw' with hw'
              subst hw'
              have hub := scanMaxSeq_ub (setGridCell s.gridCells ri ci none) w r c cell0
                (by dsimp only at hc; exact hc) hcw0
              omega
            · intro w' hw' hpos
              dsimp only at hpos ⊢
              by_cases hm : (scanMaxSeq (setGridCell s.gridCells ri ci none) w).1 = -1
              · rw [hm] at hpos
                omega
              · obtain ⟨r0, c0, cell0, _, _, _, hcoords⟩ :=
                  scanMaxSeq_ne_neg_one (setGridCell s.gridCells ri ci none) w hm
                exact ⟨_, hcoords⟩
          next => exact ⟨h1, h2, h3⟩
        next hcell =>
          have hnodup : NoDupSeq (setGridCell s.gridCells ri ci
              (some { letter := (t.toList.getD s.selectedWordData.letterIndex ' ').toUpper
                      wordId := w
                      color := col
                      sequenceIndex := s.selectedWordData.letterIndex
                      row := ri.val
                      col := ci.val })) := by
            intro r r' c c' cell0 cell0' hc hc' hw0 hs0
            dsimp only [setGridCell] at hc hc'
            by_cases hrc : r = ri ∧ c = ci <;> by_cases hrc' : r' = ri ∧ c' = ci
            · exact ⟨hrc.1.trans hrc'.1.symm, hrc.2.trans hrc'.2.symm⟩
            · rw [if_pos hrc] at hc
              rw [if_neg hrc'] at hc'
              injection hc with hc
              subst hc
              dsimp only at hw0 hs0
              have hlt := h2 w hid r' c' cell0' hc' hw0.symm
              exfalso
              omega
            · rw [if_neg hrc] at hc
              rw [if_pos hrc'] at hc'
              injection hc' with hc'
              subst hc'
              dsimp only at hw0 hs0
              have hlt := h2 w hid r c cell0 hc hw0
              exfalso
              omega
            · rw [if_neg hrc] at hc
              rw [if_neg hrc'] at hc'
              exact h1 r r' c c' cell0 cell0' hc hc' hw0 hs0
          split
          next haccept =>
            split
            next hfinal =>
              refine ⟨hnodup, ?_, ?_⟩
              · intro w' hw'
                exact absurd hw' (by simp [emptySelection])
              · intro w' hw'
                exact absurd hw' (by simp [emptySelection])
            next hnonfinal =>
              refine ⟨hnodup, ?_, ?_⟩
              · intro w' hw' r c cell0 hc hcw0
                dsimp only at hw' ⊢
                rw [hid] at hw'
                injection hw' with hw'
                subst hw'
                dsimp only [setGridCell] at hc
                by_cases hrc : r = ri ∧ c = ci
                · rw [if_pos hrc] at hc
                  injection hc with hc
                  subst hc
                  dsimp only
                  omega
                · rw [if_neg hrc] at hc
                  have := h2 w hid r c cell0 hc hcw0
                  omega
              · intro w' hw' hpos
                exact ⟨(ri.val, ci.val), rfl⟩
          next => exact ⟨h1, h2, h3⟩
  next => exact ⟨h1, h2, h3⟩

lemma inv_handleSaveEdit (s : AppState) (wid : Nat) (h : Inv s) :
    Inv (handleSaveEdit s wid) := by
  unfold handleSaveEdit
  dsimp only
  split
  · split
    · split
      · exact inv_of_grid_sel (inv_clearCellsForWord s wid h) rfl rfl
      · exact inv_of_grid_sel h rfl rfl
    · exact inv_of_grid_sel h rfl rfl
  · exact inv_of_grid_sel h rfl rfl

lemma inv_applyOp (s : AppState) (op : Op) (h : Inv s) : Inv (applyOp s op) := by
  cases op with
  | inputChange v => exact inv_of_grid_sel h rfl rfl
  | addWord n =>
    show Inv (handleAddWord s n)
    unfold handleAddWord
    split
    · exact inv_of_grid_sel h rfl rfl
    · exact h
  | editClick wid t => exact inv_emptySelection h rfl rfl
  | editInputChange v => exact inv_of_grid_sel h rfl rfl
  | saveEdit wid => exact inv_handleSaveEdit s wid h
  | cancelEdit => exact inv_of_grid_sel h rfl rfl
  | clearWordCells wid => exact inv_clearCellsForWord s wid h
  | selectWord wid t c => exact inv_handleSelectWord s wid t c h
  | cellClick ri ci => exact inv_handleCellClick s ri ci h
  | themeChange v => exact inv_of_grid_sel h rfl rfl
  | hintChange v => exact inv_of_grid_sel h rfl rfl

/-- Every reachable state satisfies the full invariant. -/
lemma inv_reachable (s : AppState) (h : Reachable s) : Inv s := by
  induction h with
  | init => exact inv_initState
  | step h op ih => exact inv_applyOp _ _ ih

/-
  Claim theorems C4 and C10.
-/

/-- Claim C4: in every reachable state no two simultaneously occupied
grid cells share the same `(wordId, sequenceIndex)` pair, and every
operation (cell clicks with any selection, word selection and
deselection, clearing a word's cells, saving a rename, and the rest)
preserves this invariant. -/
theorem reachable_no_duplicate_wordId_sequenceIndex (s : AppState)
    (h : Reachable s) :
    NoDupSeq s.gridCells ∧ ∀ op : Op, NoDupSeq (applyOp s op).gridCells :=
  ⟨(inv_reachable s h).1, fun op => (inv_reachable _ (h.step op)).1⟩

theorem reachable_no_duplicate_wordId_sequenceIndex_witness :
    NoDupSeq initState.gridCells ∧
    ∀ op : Op, NoDupSeq (applyOp initState op).gridCells :=
  reachable_no_duplicate_wordId_sequenceIndex initState Reachable.init

/-- Concrete evaluation of `String.trim` on the test word (the
well-founded recursion behind `trim` does not reduce definitionally). -/
lemma trim_CAT : "CAT".trim = "CAT" := by
  unfold String.trim Substring.trim
  dsimp only [String.toSubstring]
  rw [Substring.takeWhileAux]
  rw [dif_pos (by decide)]
  rw [if_neg (by decide)]
  rw [Substring.takeRightWhileAux]
  rw [dif_pos (by decide)]
  dsimp only
  rw [if_pos (by decide)]
  decide

/-- A concrete reachable state with one placed letter of a selected word:
select the word "CAT" and click the top-left cell. -/
def oneLetterState : AppState :=
  applyOp (applyOp initState (Op.selectWord 0 "CAT" "#EF4444")) (Op.cellClick 0 0)

lemma reachable_oneLetterState : Reachable oneLetterState :=
  Reachable.step (Reachable.step Reachable.init (Op.selectWord 0 "CAT" "#EF4444"))
    (Op.cellClick 0 0)

/-- The value of `oneLetterState`, written out. -/
def oneLetterStateValue : AppState :=
  { currentWord := ""
    enteredWords := []
    editMode := none
    editedWordText := ""
    selectedWordData :=
      { id := some 0
        text := some "CAT"
        color := some "#EF4444"
        letterIndex := 1
        lastPlacedCoords := some (0, 0) }
    gridCells := setGridCell (fun _ _ => none) 0 0
      (some { letter := 'C', wordId := 0, color := "#EF4444", sequenceIndex := 0,
              row := 0, col := 0 })
    themeText := ""
    hintText := ""
    nextColorIndex := 0 }

lemma oneLetterState_eq : oneLetterState = oneLetterStateValue := by
  show handleCellClick (handleSelectWord initState 0 "CAT" "#EF4444") 0 0 =
    oneLetterStateValue
  have h1 : handleSelectWord initState 0 "CAT" "#EF4444" =
      { initState with selectedWordData :=
          { id := some 0, text := some "CAT", color := some "#EF4444",
            letterIndex := 0, lastPlacedCoords := none } } := by
    unfold handleSelectWord
    rw [if_neg (by decide), trim_CAT]
    rfl
  rw [h1]
  rfl

/-- Claim C10: in every reachable state, a present selection with a positive
next letter index carries a present last-placed coordinate, so the
adjacency check of the empty-cell click branch is never evaluated against
an absent coordinate. -/
theorem reachable_lastPlacedCoords_present (s : AppState) (h : Reachable s)
    (w : Nat) (hw : s.selectedWordData.id = some w)
    (hpos : 0 < s.selectedWordData.letterIndex) :
    ∃ p, s.selectedWordData.lastPlacedCoords = some p :=
  (inv_reachable s h).2.2 w hw hpos

theorem reachable_lastPlacedCoords_present_witness :
    oneLetterState.selectedWordData.id = some 0 ∧
    0 < oneLetterState.selectedWordData.letterIndex ∧
    ∃ p, oneLetterState.selectedWordData.lastPlacedCoords = some p :=
  ⟨by rw [oneLetterState_eq]; rfl, by rw [oneLetterState_eq]; decide,
    reachable_lastPlacedCoords_present oneLetterState reachable_oneLetterState 0
      (by rw [oneLetterState_eq]; rfl) (by rw [oneLetterState_eq]; decide)⟩

/-
  Branch characterizations of `handleCellClick`, and the spec-level
  adjacency predicate.
-/

/-- The spec's 8-neighbor condition between two coordinate pairs: row and
column each differ by at most 1 and the cells are not identical. -/
def SpecNeighbor (p q : Nat × Nat) : Prop :=
  ((p.1 : Int) - (q.1 : Int)).natAbs ≤ 1 ∧ ((p.2 : Int) - (q.2 : Int)).natAbs ≤ 1 ∧
    ¬(p.1 = q.1 ∧ p.2 = q.2)

/-- The code's `isNeighbor` test agrees with the spec's adjacency
condition, with an absent first coordinate never adjacent. -/
lemma isNeighbor_eq_true_iff (coords : Option (Nat × Nat)) (q : Nat × Nat) :
    isNeighbor coords (some q) = true ↔ ∃ p, coords = some p ∧ SpecNeighbor p q := by
  cases coords with
  | none => simp [isNeighbor]
  | some p =>
    obtain ⟨p1, p2⟩ := p
    obtain ⟨q1, q2⟩ := q
    simp only [isNeighbor, Bool.and_eq_true, Bool.or_eq_true, decide_eq_true_eq,
      SpecNeighbor, Option.some.injEq, exists_eq_left']
    omega

/-- A click with no selected word is a no-op. -/
lemma handleCellClick_noSelection (s : AppState) (ri : Fin 8) (ci : Fin 6)
    (h : s.selectedWordData.id = none) : handleCellClick s ri ci = s := by
  unfold handleCellClick
  rw [h]

/-- A click with an exhausted selection only clears the selection. -/
lemma handleCellClick_stale (s : AppState) (ri : Fin 8) (ci : Fin 6)
    (w : Nat) (t cl : String)
    (hid : s.selectedWordData.id = some w) (htx : s.selectedWordData.text = some t)
    (htne : t ≠ "") (hcl : s.selectedWordData.color = some cl) (hclne : cl ≠ "")
    (hge : s.selectedWordData.letterIndex ≥ t.length) :
    handleCellClick s ri ci = { s with selectedWordData := emptySelection } := by
  unfold handleCellClick
  rw [hid, htx, hcl]
  simp only [htne, hclne, or_self, if_false, hge, if_true]

/-- A click on a cell of a different word is a no-op. -/
lemma handleCellClick_otherWord (s : AppState) (ri : Fin 8) (ci : Fin 6)
    (w : Nat) (t cl : String) (cell : Cell)
    (hid : s.selectedWordData.id = some w) (htx : s.selectedWordData.text = some t)
    (htne : t ≠ "") (hcl : s.selectedWordData.color = some cl) (hclne : cl ≠ "")
    (hlt : s.selectedWordData.letterIndex < t.length)
    (hcell : s.gridCells ri ci = some cell) (hcw : cell.wordId ≠ w) :
    handleCellClick s ri ci = s := by
  unfold handleCellClick
  rw [hid, htx, hcl]
  simp only [htne, hclne, or_self, if_false]
  rw [if_neg (by omega), hcell]
  dsimp only
  rw [if_neg hcw]

/-- A click on a cell of the selected word removes it and recomputes the
resumption point by the grid scan. -/
lemma handleCellClick_toggle (s : AppState) (ri : Fin 8) (ci : Fin 6)
    (w : Nat) (t cl : String) (cell : Cell)
    (hid : s.selectedWordData.id = some w) (htx : s.selectedWordData.text = some t)
    (htne : t ≠ "") (hcl : s.selectedWordData.color = some cl) (hclne : cl ≠ "")
    (hlt : s.selectedWordData.letterIndex < t.length)
    (hcell : s.gridCells ri ci = some cell) (hcw : cell.wordId = w) :
    handleCellClick s ri ci =
      { s with gridCells := setGridCell s.gridCells ri ci none
               selectedWordData :=
                 { s.selectedWordData with
                   letterIndex :=
                     (max 0 ((scanMaxSeq (setGridCell s.gridCells ri ci none) w).1 + 1)).toNat
                   lastPlacedCoords :=
                     (scanMaxSeq (setGridCell s.gridCells ri ci none) w).2 } } := by
  unfold handleCellClick
  rw [hid, htx, hcl]
  simp only [htne, hclne, or_self, if_false]
  rw [if_neg (by omega), hcell]
  dsimp only
  rw [if_pos hcw]

/-- A click on an empty cell: accepted exactly by the first-letter or
neighbor test, writing the next letter's placement; the selection then
advances or, on the final letter, empties. -/
lemma handleCellClick_empty (s : AppState) (ri : Fin 8) (ci : Fin 6)
    (w : Nat) (t cl : String)
    (hid : s.selectedWordData.id = some w) (htx : s.selectedWordData.text = some t)
    (htne : t ≠ "") (hcl : s.selectedWordData.color = some cl) (hclne : cl ≠ "")
    (hlt : s.selectedWordData.letterIndex < t.length)
    (hcell : s.gridCells ri ci = none) :
    handleCellClick s ri ci =
      if s.selectedWordData.letterIndex = 0 ∨
          isNeighbor s.selectedWordData.lastPlacedCoords
            (some (ri.val, ci.val)) = true then
        if s.selectedWordData.letterIndex + 1 ≥ t.length then
          { s with
            gridCells := setGridCell s.gridCells ri ci
              (some { letter := (t.toList.getD s.selectedWordData.letterIndex ' ').toUpper
                      wordId := w, color := cl
                      sequenceIndex := s.selectedWordData.letterIndex
                      row := ri.val, col := ci.val })
            selectedWordData := emptySelection }
        else
          { s with
            gridCells := setGridCell s.gridCells ri ci
              (some { letter := (t.toList.getD s.selectedWordData.letterIndex ' ').toUpper
                      wordId := w, color := cl
                      sequenceIndex := s.selectedWordData.letterIndex
                      row := ri.val, col := ci.val })
            selectedWordData :=
              { s.selectedWordData with
                letterIndex := s.selectedWordData.letterIndex + 1
                lastPlacedCoords := some (ri.val, ci.val) } }
      else s := by
  unfold handleCellClick
  rw [hid, htx, hcl]
  simp only [htne, hclne, or_self, if_false]
  rw [if_neg (by omega), hcell]

/-
  Resumption characterizations of the grid scan.
-/

/-- When the word has no cell on the grid the scan yields `(-1, none)`. -/
lemma scanMaxSeq_of_no_cells (g : Grid) (w : Nat)
    (h : ∀ (r : Fin 8) (c : Fin 6) (cell : Cell), g r c = some cell → cell.wordId ≠ w) :
    scanMaxSeq g w = (-1, none) := by
  rcases scanMaxSeq_cases g w with ⟨h1, _⟩ | ⟨r, c, cell, hc, hw, _, _⟩
  · exact h1
  · exact absurd hw (h r c cell hc)

/-- When `cell0` realizes the maximum sequence index of the word on the
grid, the scan returns that index together with the coordinates of a cell
achieving it. -/
lemma scanMaxSeq_of_max_cell (g : Grid) (w : Nat) (r : Fin 8) (c : Fin 6) (cell0 : Cell)
    (hc : g r c = some cell0) (hw : cell0.wordId = w)
    (hmax : ∀ (r' : Fin 8) (c' : Fin 6) (cell' : Cell), g r' c' = some cell' →
      cell'.wordId = w → cell'.sequenceIndex ≤ cell0.sequenceIndex) :
    (scanMaxSeq g w).1 = (cell0.sequenceIndex : Int) ∧
    ∃ (r1 : Fin 8) (c1 : Fin 6) (cell1 : Cell), g r1 c1 = some cell1 ∧ cell1.wordId = w ∧
      cell1.sequenceIndex = cell0.sequenceIndex ∧
      (scanMaxSeq g w).2 = some (r1.val, c1.val) := by
  have hub := scanMaxSeq_ub g w r c cell0 hc hw
  have hne : (scanMaxSeq g w).1 ≠ -1 := by omega
  obtain ⟨r1, c1, cell1, hc1, hw1, h1, h2⟩ := scanMaxSeq_ne_neg_one g w hne
  have hle := hmax r1 c1 cell1 hc1 hw1
  have heq : cell1.sequenceIndex = cell0.sequenceIndex := by omega
  exact ⟨by rw [h1, heq], r1, c1, cell1, hc1, hw1, heq, h2⟩

/-
  Concrete states used by witnesses and counterexamples.
-/

/-- The word "CAT" (id 0) freshly selected over an empty grid. -/
def catSelState : AppState :=
  { initState with selectedWordData :=
      { id := some 0, text := some "CAT", color := some "#EF4444",
        letterIndex := 0, lastPlacedCoords := none } }

/-- The one-letter word "A" (id 0) freshly selected over an empty grid. -/
def aSelState : AppState :=
  { initState with selectedWordData :=
      { id := some 0, text := some "A", color := some "#EF4444",
        letterIndex := 0, lastPlacedCoords := none } }

/-- The grid of `oneLetterStateValue` with a different word (id 1)
selected. -/
def otherWordState : AppState :=
  { oneLetterStateValue with selectedWordData :=
      { id := some 1, text := some "DOG", color := some "#3B82F6",
        letterIndex := 0, lastPlacedCoords := none } }

/-- A stale selection: "CAT" with all three letters already placed
according to its letter index. -/
def staleState : AppState :=
  { initState with selectedWordData :=
      { id := some 0, text := some "CAT", color := some "#EF4444",
        letterIndex := 3, lastPlacedCoords := some (1, 1) } }

/-
  Claim theorems C1, C2, C3, C5, C6, C7, C8.
-/

/-- Claim C1: a click on an empty cell while a selection with a remaining
letter exists is accepted exactly when the next index is 0 or the clicked
cell is an 8-neighbor of the last placed coordinate; acceptance writes
the placement `(uppercase letter, wordId, sequenceIndex = nextIndex,
clicked row and column)` into that cell and changes no other cell;
rejection changes nothing at all. -/
theorem click_empty_cell_placement (s : AppState) (ri : Fin 8) (ci : Fin 6)
    (w : Nat) (t cl : String)
    (hid : s.selectedWordData.id = some w) (htx : s.selectedWordData.text = some t)
    (htne : t ≠ "") (hcl : s.selectedWordData.color = some cl) (hclne : cl ≠ "")
    (hlt : s.selectedWordData.letterIndex < t.length)
    (hcell : s.gridCells ri ci = none) :
    ((s.selectedWordData.letterIndex = 0 ∨
        ∃ p, s.selectedWordData.lastPlacedCoords = some p ∧
          SpecNeighbor p (ri.val, ci.val)) →
      (handleCellClick s ri ci).gridCells ri ci =
        some { letter := (t.toList.getD s.selectedWordData.letterIndex ' ').toUpper
               wordId := w, color := cl
               sequenceIndex := s.selectedWordData.letterIndex
               row := ri.val, col := ci.val } ∧
      ∀ (r : Fin 8) (c : Fin 6), ¬(r = ri ∧ c = ci) →
        (handleCellClick s ri ci).gridCells r c = s.gridCells r c) ∧
    (¬(s.selectedWordData.letterIndex = 0 ∨
        ∃ p, s.selectedWordData.lastPlacedCoords = some p ∧
          SpecNeighbor p (ri.val, ci.val)) →
      handleCellClick s ri ci = s) := by
  have hemp := handleCellClick_empty s ri ci w t cl hid htx htne hcl hclne hlt hcell
  have hiff : (s.selectedWordData.letterIndex = 0 ∨
      isNeighbor s.selectedWordData.lastPlacedCoords (some (ri.val, ci.val)) = true) ↔
      (s.selectedWordData.letterIndex = 0 ∨
        ∃ p, s.selectedWordData.lastPlacedCoords = some p ∧
          SpecNeighbor p (ri.val, ci.val)) :=
    or_congr_right (isNeighbor_eq_true_iff s.selectedWordData.lastPlacedCoords
      (ri.val, ci.val))
  constructor
  · intro hA
    rw [hemp, if_pos (hiff.mpr hA)]
    constructor
    · split <;> exact setGridCell_self _ _ _ _
    · intro r c hrc
      split <;> exact setGridCell_other _ _ _ _ r c hrc
  · intro hA
    rw [hemp, if_neg (fun hc => hA (hiff.mp hc))]

theorem click_empty_cell_placement_witness :
    catSelState.gridCells 0 0 = none ∧
    (handleCellClick catSelState 0 0).gridCells 0 0 =
      some { letter := ("CAT".toList.getD catSelState.selectedWordData.letterIndex ' ').toUpper
             wordId := 0, color := "#EF4444"
             sequenceIndex := catSelState.selectedWordData.letterIndex
             row := 0, col := 0 } :=
  ⟨rfl,
    ((click_empty_cell_placement catSelState 0 0 0 "CAT" "#EF4444" rfl rfl
      (by decide) rfl (by decide) (by decide) rfl).1 (Or.inl rfl)).1⟩

/-- Claim C2: a click on a cell occupied by the selected word (at any sequence
index) empties exactly that cell; afterwards the next letter index is one
past the maximum sequence index surviving on the grid for that word (0
when none survives) and the last placed coordinate points at a surviving
cell achieving that maximum (absent when none survives). -/
theorem click_toggle_off_resumption (s : AppState) (ri : Fin 8) (ci : Fin 6)
    (w : Nat) (t cl : String) (cell : Cell)
    (hid : s.selectedWordData.id = some w) (htx : s.selectedWordData.text = some t)
    (htne : t ≠ "") (hcl : s.selectedWordData.color = some cl) (hclne : cl ≠ "")
    (hlt : s.selectedWordData.letterIndex < t.length)
    (hcell : s.gridCells ri ci = some cell) (hcw : cell.wordId = w) :
    (handleCellClick s ri ci).gridCells ri ci = none ∧
    (∀ (r : Fin 8) (c : Fin 6), ¬(r = ri ∧ c = ci) →
      (handleCellClick s ri ci).gridCells r c = s.gridCells r c) ∧
    ((∀ (r : Fin 8) (c : Fin 6) (cell0 : Cell),
        (handleCellClick s ri ci).gridCells r c = some cell0 → cell0.wordId ≠ w) →
      (handleCellClick s ri ci).selectedWordData.letterIndex = 0 ∧
      (handleCellClick s ri ci).selectedWordData.lastPlacedCoords = none) ∧
    (∀ (r : Fin 8) (c : Fin 6) (cell0 : Cell),
      (handleCellClick s ri ci).gridCells r c = some cell0 → cell0.wordId = w →
      (∀ (r' : Fin 8) (c' : Fin 6) (cell' : Cell),
        (handleCellClick s ri ci).gridCells r' c' = some cell' → cell'.wordId = w →
        cell'.sequenceIndex ≤ cell0.sequenceIndex) →
      (handleCellClick s ri ci).selectedWordData.letterIndex = cell0.sequenceIndex + 1 ∧
      ∃ (r1 : Fin 8) (c1 : Fin 6) (cell1 : Cell),
        (handleCellClick s ri ci).gridCells r1 c1 = some cell1 ∧ cell1.wordId = w ∧
        cell1.sequenceIndex = cell0.sequenceIndex ∧
        (handleCellClick s ri ci).selectedWordData.lastPlacedCoords =
          some (r1.val, c1.val)) := by
  have htog := handleCellClick_toggle s ri ci w t cl cell hid htx htne hcl hclne hlt
    hcell hcw
  rw [htog]
  dsimp only
  refine ⟨setGridCell_self _ _ _ _, fun r c hrc => setGridCell_other _ _ _ _ r c hrc,
    ?_, ?_⟩
  · intro hno
    rw [scanMaxSeq_of_no_cells (setGridCell s.gridCells ri ci none) w hno]
    exact ⟨rfl, rfl⟩
  · intro r c cell0 hc hcw0 hmax
    obtain ⟨h1, r1, c1, cell1, hc1, hw1, heq, h2⟩ :=
      scanMaxSeq_of_max_cell (setGridCell s.gridCells ri ci none) w r c cell0 hc
        hcw0 hmax
    refine ⟨by omega, r1, c1, cell1, hc1, hw1, heq, h2⟩

theorem click_toggle_off_resumption_witness :
    oneLetterStateValue.gridCells 0 0 =
      some { letter := 'C', wordId := 0, color := "#EF4444", sequenceIndex := 0,
             row := 0, col := 0 } ∧
    (handleCellClick oneLetterStateValue 0 0).gridCells 0 0 = none :=
  ⟨rfl,
    (click_toggle_off_resumption oneLetterStateValue 0 0 0 "CAT" "#EF4444"
      { letter := 'C', wordId := 0, color := "#EF4444", sequenceIndex := 0,
        row := 0, col := 0 }
      rfl rfl (by decide) rfl (by decide) (by decide) rfl rfl).1⟩

/-- Claim C3: selecting a word that is not the current selection trims the
given text into the selection, leaves every grid cell unchanged, and
resumes from the grid: next index is one past the maximum sequence index
of the word's occupied cells (0 when there are none), with the last
placed coordinate at a cell achieving that maximum (absent when none). -/
theorem selectWord_resumption (s : AppState) (wid : Nat) (wtext wcolor : String)
    (h : s.selectedWordData.id ≠ some wid) :
    (handleSelectWord s wid wtext wcolor).gridCells = s.gridCells ∧
    (handleSelectWord s wid wtext wcolor).selectedWordData.text = some wtext.trim ∧
    ((∀ (r : Fin 8) (c : Fin 6) (cell : Cell),
        s.gridCells r c = some cell → cell.wordId ≠ wid) →
      (handleSelectWord s wid wtext wcolor).selectedWordData.letterIndex = 0 ∧
      (handleSelectWord s wid wtext wcolor).selectedWordData.lastPlacedCoords = none) ∧
    (∀ (r : Fin 8) (c : Fin 6) (cell : Cell),
      s.gridCells r c = some cell → cell.wordId = wid →
      (∀ (r' : Fin 8) (c' : Fin 6) (cell' : Cell), s.gridCells r' c' = some cell' →
        cell'.wordId = wid → cell'.sequenceIndex ≤ cell.sequenceIndex) →
      (handleSelectWord s wid wtext wcolor).selectedWordData.letterIndex =
        cell.sequenceIndex + 1 ∧
      ∃ (r1 : Fin 8) (c1 : Fin 6) (cell1 : Cell), s.gridCells r1 c1 = some cell1 ∧
        cell1.wordId = wid ∧ cell1.sequenceIndex = cell.sequenceIndex ∧
        (handleSelectWord s wid wtext wcolor).selectedWordData.lastPlacedCoords =
          some (r1.val, c1.val)) := by
  have hsel := handleSelectWord_sel_ne s wid wtext wcolor h
  refine ⟨handleSelectWord_gridCells s wid wtext wcolor, by rw [hsel], ?_, ?_⟩
  · intro hno
    rw [hsel]
    dsimp only
    rw [scanMaxSeq_of_no_cells s.gridCells wid hno]
    exact ⟨rfl, rfl⟩
  · intro r c cell hc hcw hmax
    obtain ⟨h1, r1, c1, cell1, hc1, hw1, heq, h2⟩ :=
      scanMaxSeq_of_max_cell s.gridCells wid r c cell hc hcw hmax
    rw [hsel]
    dsimp only
    constructor
    · rw [if_neg (by omega)]
      omega
    · exact ⟨r1, c1, cell1, hc1, hw1, heq, h2⟩

theorem selectWord_resumption_witness :
    oneLetterStateValue.selectedWordData.id ≠ some 1 ∧
    (handleSelectWord oneLetterStateValue 1 "DOG" "#3B82F6").selectedWordData.letterIndex
      = 0 ∧
    (handleSelectWord oneLetterStateValue 1 "DOG" "#3B82F6").selectedWordData.lastPlacedCoords
      = none := by
  have hno : ∀ (r : Fin 8) (c : Fin 6) (cell : Cell),
      oneLetterStateValue.gridCells r c = some cell → cell.wordId ≠ 1 := by
    intro r c cell hc
    dsimp only [oneLetterStateValue, setGridCell] at hc
    by_cases hrc : r = 0 ∧ c = 0
    · rw [if_pos hrc] at hc
      injection hc with hc
      subst hc
      decide
    · rw [if_neg hrc] at hc
      cases hc
  have hmain := selectWord_resumption oneLetterStateValue 1 "DOG" "#3B82F6" (by decide)
  exact ⟨by decide, (hmain.2.2.1 hno).1, (hmain.2.2.1 hno).2⟩

/-- Claim C5: an accepted placement of the final letter (next index + 1 equals
the selected text's length) leaves the selection absent and changes the
grid only at the newly written cell. -/
theorem click_final_letter_deselects (s : AppState) (ri : Fin 8) (ci : Fin 6)
    (w : Nat) (t cl : String)
    (hid : s.selectedWordData.id = some w) (htx : s.selectedWordData.text = some t)
    (htne : t ≠ "") (hcl : s.selectedWordData.color = some cl) (hclne : cl ≠ "")
    (hfin : s.selectedWordData.letterIndex + 1 = t.length)
    (hcell : s.gridCells ri ci = none)
    (haccept : s.selectedWordData.letterIndex = 0 ∨
      ∃ p, s.selectedWordData.lastPlacedCoords = some p ∧
        SpecNeighbor p (ri.val, ci.val)) :
    (handleCellClick s ri ci).selectedWordData = emptySelection ∧
    (handleCellClick s ri ci).gridCells ri ci =
      some { letter := (t.toList.getD s.selectedWordData.letterIndex ' ').toUpper
             wordId := w, color := cl
             sequenceIndex := s.selectedWordData.letterIndex
             row := ri.val, col := ci.val } ∧
    ∀ (r : Fin 8) (c : Fin 6), ¬(r = ri ∧ c = ci) →
      (handleCellClick s ri ci).gridCells r c = s.gridCells r c := by
  have hemp := handleCellClick_empty s ri ci w t cl hid htx htne hcl hclne
    (by omega) hcell
  have hiff := or_congr_right (isNeighbor_eq_true_iff s.selectedWordData.lastPlacedCoords
    (ri.val, ci.val)) (a := s.selectedWordData.letterIndex = 0)
  rw [hemp, if_pos (hiff.mpr haccept), if_pos (by omega)]
  exact ⟨rfl, setGridCell_self _ _ _ _, fun r c hrc => setGridCell_other _ _ _ _ r c hrc⟩

theorem click_final_letter_deselects_witness :
    aSelState.selectedWordData.letterIndex + 1 = "A".length ∧
    (handleCellClick aSelState 0 0).selectedWordData = emptySelection :=
  ⟨by decide,
    (click_final_letter_deselects aSelState 0 0 0 "A" "#EF4444" rfl rfl (by decide)
      rfl (by decide) (by decide) rfl (Or.inl rfl)).1⟩

/-- Claim C6: invalid clicks are silent no-ops — a click with no selection
changes nothing, a click on a cell of a different word (with letters
still to place) changes nothing, and a click with an exhausted selection
leaves the grid unchanged and clears the selection. -/
theorem invalid_clicks_silent (s : AppState) (ri : Fin 8) (ci : Fin 6) :
    (s.selectedWordData.id = none → handleCellClick s ri ci = s) ∧
    (∀ (w : Nat) (t cl : String) (cell : Cell),
      s.selectedWordData.id = some w → s.selectedWordData.text = some t → t ≠ "" →
      s.selectedWordData.color = some cl → cl ≠ "" →
      s.selectedWordData.letterIndex < t.length →
      s.gridCells ri ci = some cell → cell.wordId ≠ w →
      handleCellClick s ri ci = s) ∧
    (∀ (w : Nat) (t cl : String),
      s.selectedWordData.id = some w → s.selectedWordData.text = some t → t ≠ "" →
      s.selectedWordData.color = some cl → cl ≠ "" →
      s.selectedWordData.letterIndex ≥ t.length →
      (handleCellClick s ri ci).gridCells = s.gridCells ∧
      (handleCellClick s ri ci).selectedWordData = emptySelection) := by
  refine ⟨handleCellClick_noSelection s ri ci, ?_, ?_⟩
  · intro w t cl cell hid htx htne hcl hclne hlt hcell hcw
    exact handleCellClick_otherWord s ri ci w t cl cell hid htx htne hcl hclne hlt
      hcell hcw
  · intro w t cl hid htx htne hcl hclne hge
    rw [handleCellClick_stale s ri ci w t cl hid htx htne hcl hclne hge]
    exact ⟨rfl, rfl⟩

theorem invalid_clicks_silent_witness :
    handleCellClick initState 0 0 = initState ∧
    handleCellClick otherWordState 0 0 = otherWordState ∧
    (handleCellClick staleState 0 0).selectedWordData = emptySelection :=
  ⟨(invalid_clicks_silent initState 0 0).1 rfl,
   (invalid_clicks_silent otherWordState 0 0).2.1 1 "DOG" "#3B82F6"
     { letter := 'C', wordId := 0, color := "#EF4444", sequenceIndex := 0,
       row := 0, col := 0 }
     rfl rfl (by decide) rfl (by decide) (by decide) rfl (by decide),
   ((invalid_clicks_silent staleState 0 0).2.2 0 "CAT" "#EF4444" rfl rfl (by decide)
     rfl (by decide) (by decide)).2⟩

/-- Claim C7: clearing a word's cells empties exactly the cells owned by that
word and leaves all other cells unchanged; if the cleared word is the
current selection its next index becomes 0 and its last placed coordinate
absent, while a selection of a different word is unchanged. -/
theorem clearCellsForWord_effect (s : AppState) (wid : Nat) :
    (∀ (r : Fin 8) (c : Fin 6) (cell : Cell),
        s.gridCells r c = some cell → cell.wordId = wid →
        (clearCellsForWord s wid).gridCells r c = none) ∧
    (∀ (r : Fin 8) (c : Fin 6) (cell : Cell),
        s.gridCells r c = some cell → cell.wordId ≠ wid →
        (clearCellsForWord s wid).gridCells r c = some cell) ∧
    (∀ (r : Fin 8) (c : Fin 6),
        s.gridCells r c = none → (clearCellsForWord s wid).gridCells r c = none) ∧
    (s.selectedWordData.id = some wid →
      (clearCellsForWord s wid).selectedWordData =
        { s.selectedWordData with letterIndex := 0, lastPlacedCoords := none }) ∧
    (s.selectedWordData.id ≠ some wid →
      (clearCellsForWord s wid).selectedWordData = s.selectedWordData) := by
  refine ⟨?_, ?_, ?_, ?_, ?_⟩
  · intro r c cell hc hw
    rw [clearCellsForWord_gridCells, hc]
    dsimp only
    rw [if_pos hw]
  · intro r c cell hc hw
    rw [clearCellsForWord_gridCells, hc]
    dsimp only
    rw [if_neg hw]
  · intro r c hc
    rw [clearCellsForWord_gridCells, hc]
  · intro hsel
    rw [clearCellsForWord_sel, if_pos hsel]
  · intro hsel
    rw [clearCellsForWord_sel, if_neg hsel]

theorem clearCellsForWord_effect_witness :
    (clearCellsForWord oneLetterStateValue 0).gridCells 0 0 = none ∧
    (clearCellsForWord oneLetterStateValue 0).selectedWordData =
      { oneLetterStateValue.selectedWordData with
        letterIndex := 0, lastPlacedCoords := none } :=
  ⟨(clearCellsForWord_effect oneLetterStateValue 0).1 0 0
      { letter := 'C', wordId := 0, color := "#EF4444", sequenceIndex := 0,
        row := 0, col := 0 } rfl rfl,
   (clearCellsForWord_effect oneLetterStateValue 0).2.2.2.1 rfl⟩

/-- Claim C8, counterexample: selecting "CAT" twice in a row from a state where
"CAT" is already the current selection ends with "CAT" selected again,
not with an absent selection. -/
theorem select_twice_from_selected_cex :
    ¬ ((handleSelectWord (handleSelectWord catSelState 0 "CAT" "#EF4444")
        0 "CAT" "#EF4444").selectedWordData.id = none) := by
  decide

/-- Claim C8 as amended: selecting a word never changes the grid; selecting an
already-selected word deselects it; and from any state where the word is
not the current selection, selecting it twice in a row yields an absent
selection with the grid unchanged. -/
theorem select_twice_toggle (s : AppState) (wid : Nat) (wtext wcolor : String) :
    (handleSelectWord s wid wtext wcolor).gridCells = s.gridCells ∧
    (s.selectedWordData.id = some wid →
      (handleSelectWord s wid wtext wcolor).selectedWordData = emptySelection) ∧
    (s.selectedWordData.id ≠ some wid →
      (handleSelectWord (handleSelectWord s wid wtext wcolor)
        wid wtext wcolor).selectedWordData = emptySelection ∧
      (handleSelectWord (handleSelectWord s wid wtext wcolor)
        wid wtext wcolor).gridCells = s.gridCells) := by
  refine ⟨handleSelectWord_gridCells s wid wtext wcolor, ?_, ?_⟩
  · exact handleSelectWord_sel_eq s wid wtext wcolor
  · intro h
    have hsel := handleSelectWord_sel_ne s wid wtext wcolor h
    constructor
    · exact handleSelectWord_sel_eq _ wid wtext wcolor (by rw [hsel])
    · rw [handleSelectWord_gridCells, handleSelectWord_gridCells]

theorem select_twice_toggle_witness :
    initState.selectedWordData.id ≠ some 0 ∧
    (handleSelectWord (handleSelectWord initState 0 "CAT" "#EF4444")
      0 "CAT" "#EF4444").selectedWordData = emptySelection :=
  ⟨by decide,
    ((select_twice_toggle initState 0 "CAT" "#EF4444").2.2 (by decide)).1⟩

/-
  Claim C9: the export format, stated against a serializer written from
  the spec's words and proved equal to the code's `handleExport`.
-/

/-- Written from the spec's words (section 6): the 0-based position of
the word with the given id in the registry order, `-1` when the word no
longer exists. -/
def wordPositionSpec : List Word → Nat → Int
  | [], _ => -1
  | wd :: ws, wid =>
    if wd.id = wid then 0
    else if wordPositionSpec ws wid = -1 then -1 else wordPositionSpec ws wid + 1

/-- Written from the spec's words: one placement record, formatted
`wordIndex;sequenceIndex;row;col`. -/
def exportRecordSpec (words : List Word) (cell : Cell) : String :=
  toString (wordPositionSpec words cell.wordId) ++ ";" ++ toString cell.sequenceIndex
    ++ ";" ++ toString cell.row ++ ";" ++ toString cell.col

/-- Written from the spec's words: the occupied cells in row-major grid
scan order (row 0..7 outer, col 0..5 inner). -/
def occupiedCellsSpec (g : Grid) : List Cell :=
  ((List.finRange 8).map (fun r => (List.finRange 6).filterMap (fun c => g r c))).flatten

/-- Written from the spec's words: the export body of four
newline-separated lines — theme text, hint text, comma-joined word texts
in registry order, and comma-joined placement records of the occupied
cells in row-major scan order. -/
def exportBodySpec (s : AppState) : String :=
  s.themeText ++ "\n" ++ s.hintText ++ "\n" ++
    String.intercalate "," (s.enteredWords.map (fun w => w.text)) ++ "\n" ++
    String.intercalate "," ((occupiedCellsSpec s.gridCells).map
      (fun cell => exportRecordSpec s.enteredWords cell))

/-- The flattened row-major scan and the per-row scan produce the same
occupied cells. -/
lemma filterMap_allCoords (g : Grid) :
    allCoords.filterMap (fun rc => g rc.1 rc.2) = occupiedCellsSpec g := by
  unfold allCoords occupiedCellsSpec
  generalize List.finRange 8 = l
  induction l with
  | nil => rfl
  | cons r l ih =>
    simp only [List.foldr_cons, List.filterMap_append, List.map_cons,
      List.flatten_cons, ih, List.filterMap_map]
    rfl

/-- The spec's registry position agrees with the code's
find-then-index-of computation. -/
lemma wordPositionSpec_eq_findIdx (wid : Nat) (ws : List Word) :
    wordPositionSpec ws wid =
      match ws.findIdx? (fun w => w.id = wid) with
      | some i => (i : Int)
      | none => -1 := by
  induction ws with
  | nil => rfl
  | cons wd tl ih =>
    rw [List.findIdx?_cons]
    by_cases hw : wd.id = wid
    · simp only [hw, decide_True, if_true]
      unfold wordPositionSpec
      rw [if_pos hw]
      rfl
    · simp only [hw, decide_False, Bool.false_eq_true, if_false]
      rw [List.findIdx?_succ]
      unfold wordPositionSpec
      rw [if_neg hw]
      cases h : tl.findIdx? (fun w => decide (w.id = wid)) 0 with
      | none =>
        rw [ih, h]
        simp
      | some i =>
        have hih : wordPositionSpec tl wid = (i : Int) := by
          rw [ih, h]
        rw [hih]
        simp only [Option.map_some']
        rw [if_neg (by omega)]
        push_cast
        ring

/-- The code's record string equals the spec's record string. -/
lemma exportRecord_eq_spec (words : List Word) (cell : Cell) :
    exportRecord words cell = exportRecordSpec words cell := by
  unfold exportRecord exportRecordSpec
  rw [wordPositionSpec_eq_findIdx]

/-- Claim C9: the exported file content is the byte-order mark followed by four
newline-separated lines: the theme text, the hint text, the comma-joined
word texts in registry order, and comma-joined records
`wordIndex;sequenceIndex;row;col` — one per occupied cell in row-major
scan order, `wordIndex` being the word's 0-based registry position or
`-1` when the word no longer exists. -/
theorem handleExport_format (s : AppState) :
    handleExport s = "\uFEFF" ++ exportBodySpec s := by
  unfold handleExport exportBodySpec
  dsimp only
  rw [filterMap_allCoords]
  simp only [exportRecord_eq_spec]
  simp [String.append_assoc]

end Strands
